import Mathlib

/-
  Verification development for the prisma migration-engine core
  (server/prisma-rs/migration-engine/core).

  The definitions below are a shallow embedding of the Rust sources:
    - src/api/rpc.rs        (RpcApi::new, RpcApi::handle, create_handler, convert_error)
    - src/main.rs           (main)
    - tests/test_harness/*  (introspect_database, infer_and_apply helpers)
  together with components that the spec describes but whose sources are not
  part of the visible core (the Step Inferrer, the Database Inspector, the
  command implementations, the serde_json framing check); those are modelled
  from the spec and are marked as such in their doc comments.
-/

namespace Prisma

/-! ## Request framing: JSON well-formedness

The request loop in `RpcApi::handle` accumulates stdin lines until
`serde_json::from_str::<serde_json::Value>` succeeds on the buffer. -/

/-- Whitespace characters accepted between JSON tokens. -/
def isJsonWs (c : Char) : Bool :=
  c = ' ' || c = '\t' || c = '\n' || c = '\r'

/-- Drop leading JSON whitespace. -/
def skipWs : List Char → List Char
  | [] => []
  | c :: cs => if isJsonWs c then skipWs cs else c :: cs

/-- Expect the literal characters `expected` at the head of the input,
returning the remainder. -/
def expectChars : List Char → List Char → Option (List Char)
  | [], cs => some cs
  | _ :: _, [] => none
  | e :: es, c :: cs => if c = e then expectChars es cs else none

/-- Consume the remainder of a JSON string literal (the opening quote has
already been consumed); a backslash escapes the following character. -/
def stringRest : List Char → Option (List Char)
  | [] => none
  | c :: cs =>
    if c = '\x22' then some cs
    else if c = '\\' then
      match cs with
      | [] => none
      | _ :: cs2 => stringRest cs2
    else stringRest cs

/-- Characters that may occur in a JSON number after its first character. -/
def isNumChar (c : Char) : Bool :=
  c.isDigit || c = '.' || c = '-' || c = '+' || c = 'e' || c = 'E'

/-- Consume the remaining characters of a JSON number. -/
def dropNumChars (cs : List Char) : List Char :=
  cs.dropWhile isNumChar

mutual

/-- Modelled from the spec: the framing check used by the request loop is
`serde_json::from_str::<serde_json::Value>` (an external crate, not under
src/); per the spec the request is read "until it parses as well-formed
structured data". This is a recursive-descent JSON syntax checker: it
consumes one JSON value and returns the unconsumed remainder. Fuel bounds
the recursion. -/
def parseValue : Nat → List Char → Option (List Char)
  | 0, _ => none
  | fuel + 1, cs =>
    match skipWs cs with
    | [] => none
    | c :: rest =>
      if c = 'n' then expectChars ['u', 'l', 'l'] rest
      else if c = 't' then expectChars ['r', 'u', 'e'] rest
      else if c = 'f' then expectChars ['a', 'l', 's', 'e'] rest
      else if c = '\x22' then stringRest rest
      else if c = '\x5b' then parseArrayRest fuel rest
      else if c = '\x7b' then parseObjectRest fuel rest
      else if c.isDigit || c = '-' then some (dropNumChars rest)
      else none

/-- After an opening bracket: an empty array or a list of elements. -/
def parseArrayRest : Nat → List Char → Option (List Char)
  | 0, _ => none
  | fuel + 1, cs =>
    match skipWs cs with
    | c :: rest =>
      if c = '\x5d' then some rest else parseElems fuel (c :: rest)
    | [] => none

/-- One array element, then either a comma and more elements or the
closing bracket. -/
def parseElems : Nat → List Char → Option (List Char)
  | 0, _ => none
  | fuel + 1, cs =>
    match parseValue fuel cs with
    | none => none
    | some rest =>
      match skipWs rest with
      | c :: rest2 =>
        if c = ',' then parseElems fuel rest2
        else if c = '\x5d' then some rest2
        else none
      | [] => none

/-- After an opening brace: an empty object or a list of members. -/
def parseObjectRest : Nat → List Char → Option (List Char)
  | 0, _ => none
  | fuel + 1, cs =>
    match skipWs cs with
    | c :: rest =>
      if c = '\x7d' then some rest else parseMembers fuel (c :: rest)
    | [] => none

/-- One object member (string key, colon, value), then either a comma and
more members or the closing brace. -/
def parseMembers : Nat → List Char → Option (List Char)
  | 0, _ => none
  | fuel + 1, cs =>
    match skipWs cs with
    | c :: rest =>
      if c = '\x22' then
        match stringRest rest with
        | none => none
        | some rest2 =>
          match skipWs rest2 with
          | c2 :: rest3 =>
            if c2 = ':' then
              match parseValue fuel rest3 with
              | none => none
              | some rest4 =>
                match skipWs rest4 with
                | c3 :: rest5 =>
                  if c3 = ',' then parseMembers fuel rest5
                  else if c3 = '\x7d' then some rest5
                  else none
                | [] => none
            else none
          | [] => none
      else none
    | [] => none

end

/-- Modelled from the spec: `serde_json::from_str::<serde_json::Value>(s).is_ok()`
(the framing check of `RpcApi::handle`, rpc.rs line 87) — the whole input,
up to trailing whitespace, is one well-formed JSON value. -/
def jsonComplete (s : String) : Bool :=
  match parseValue (4 * s.length + 8) s.data with
  | some rest => (skipWs rest).isEmpty
  | none => false

/-! ## The request-reading loop (`RpcApi::handle`, rpc.rs lines 81-96)

The Rust loop appends one stdin line per iteration to a growing buffer
and stops as soon as the buffer parses as JSON.  At end of input
`read_line` returns 0 bytes and leaves the buffer unchanged, so if the
buffer does not parse at that point it never will: the loop never
terminates.  We model the input stream as the finite list of its lines
followed by end-of-file, and model non-termination of the loop as `none`. -/

def readUntilJson (p : String → Bool) : List String → String → Option String
  | [], buf => if p buf then some buf else none
  | line :: rest, buf =>
    let buf' := buf ++ line
    if p buf' then some buf' else readUntilJson p rest buf'

/-- Model of `RpcApi::handle` followed by `main` (main.rs lines 4-12): read one
request with the accumulation loop, hand it to the JSON-RPC layer
(`handle_request_sync`, modelled as the parameter `dispatch`), and print
the single result.  `none` means no response is ever written (either the
read loop never terminates, or the dispatch produced no output and the
`unwrap` in `main` panics). -/
def handle (p : String → Bool) (dispatch : String → Option String)
    (lines : List String) : Option String :=
  match readUntilJson p lines "" with
  | none => none
  | some req => dispatch req

/-- Concatenation of the first `k` lines of the stream. -/
def concatTake (k : Nat) (lines : List String) : String :=
  (lines.take k).foldr (fun a b => a ++ b) ""


/-! ## The command dispatcher (rpc.rs lines 15-104)

`RpcApi::new` parses the configuration (via the external `datamodel`
parser, whose output we take as the already-parsed list of datasources),
selects the connector by the datasource's backend identifier, and
registers one JSON-RPC method handler per command. -/

/-- The eight dispatcher operations (rpc.rs lines 20-30). -/
inductive RpcCommand
  | InferMigrationSteps
  | ListMigrations
  | MigrationProgress
  | ApplyMigration
  | UnapplyMigration
  | Reset
  | CalculateDatamodel
  | CalculateDatabaseSteps
deriving DecidableEq

/-- Wire method name of each command (rpc.rs lines 33-44). -/
def RpcCommand.name : RpcCommand → String
  | .InferMigrationSteps => "inferMigrationSteps"
  | .ListMigrations => "listMigrations"
  | .MigrationProgress => "migrationProgress"
  | .ApplyMigration => "applyMigration"
  | .UnapplyMigration => "unapplyMigration"
  | .Reset => "reset"
  | .CalculateDatamodel => "calculateDatamodel"
  | .CalculateDatabaseSteps => "calculateDatabaseSteps"

/-- The `add_command_handler` calls of `RpcApi::new`, in source order
(rpc.rs lines 68-76).  Note `MigrationProgress` is registered twice in the
source; re-registering a method name replaces the previous handler, and
both registrations carry the same command. -/
def registrationOrder : List RpcCommand :=
  [.ApplyMigration, .InferMigrationSteps, .ListMigrations, .MigrationProgress,
   .MigrationProgress, .UnapplyMigration, .Reset, .CalculateDatamodel,
   .CalculateDatabaseSteps]

/-- A datasource of the parsed configuration: its backend identifier
(`connector_type`) and connection URL. -/
structure Datasource where
  connector_type : String
  url : String
deriving DecidableEq

/-- The backends `RpcApi::new` accepts (rpc.rs lines 56-61). -/
inductive SupportedBackend
  | sqlite
  | postgresql
  | mysql
deriving DecidableEq

/-- Backend identifier string of a supported backend. -/
def SupportedBackend.ident : SupportedBackend → String
  | .sqlite => "sqlite"
  | .postgresql => "postgresql"
  | .mysql => "mysql"

/-- The match on `source.connector_type()` in rpc.rs lines 56-61. -/
def backendOfIdent (s : String) : Option SupportedBackend :=
  if s = "sqlite" then some .sqlite
  else if s = "postgresql" then some .postgresql
  else if s = "mysql" then some .mysql
  else none

/-- How `RpcApi::new` can fail to produce an api: the missing-datasource
`CommandError` returned as `Err` (rpc.rs lines 51-54), a connector
construction error propagated by `?` (lines 57-59, 65), or the
`unimplemented!` panic on an unknown backend identifier (line 60).  Every
one of these is fatal: `main` (main.rs line 7) unwraps the result, so the
process exits before serving any request. -/
inductive StartupFailure
  | noDatasource (code : Nat) (errors : List String)
  | connectorFailed
  | unsupportedBackendPanic (backendName : String)
deriving DecidableEq

/-- A constructed `RpcApi`: the selected backend and the registered
(method name, command) handlers. -/
structure RpcApiModel where
  backend : SupportedBackend
  registered : List (String × RpcCommand)
deriving DecidableEq

/-- Model of `RpcApi::new` (rpc.rs lines 48-79).  `connect` abstracts the fallible
construction of `SqlMigrationConnector` and `MigrationApi` for a known
backend. -/
def rpcApiNew (connect : SupportedBackend → String → Bool)
    (datasources : List Datasource) : Except StartupFailure RpcApiModel :=
  match datasources.head? with
  | none => .error (.noDatasource 1000 ["There is no datasource in the configuration."])
  | some ds =>
    match backendOfIdent ds.connector_type with
    | some b =>
      if connect b ds.url then
        .ok { backend := b, registered := registrationOrder.map (fun c => (c.name, c)) }
      else
        .error .connectorFailed
    | none => .error (.unsupportedBackendPanic ds.connector_type)

/-- Handler lookup in the `IoHandler`: the registration entry for a
method name, if any. -/
def lookupMethod (api : RpcApiModel) (m : String) : Option (String × RpcCommand) :=
  api.registered.find? (fun pr => pr.1 == m)

/-- The executor methods of `GenericApi`. -/
inductive ExecutorMethod
  | infer_migration_steps
  | list_migrations
  | migration_progress
  | apply_migration
  | unapply_migration
  | reset
  | calculate_datamodel
  | calculate_database_steps
deriving DecidableEq

/-- Which executor method the handler of each command invokes
(the match in `RpcApi::create_handler`, rpc.rs lines 116-163). -/
def executorMethodOf : RpcCommand → ExecutorMethod
  | .InferMigrationSteps => .infer_migration_steps
  | .ListMigrations => .list_migrations
  | .MigrationProgress => .migration_progress
  | .ApplyMigration => .apply_migration
  | .UnapplyMigration => .unapply_migration
  | .Reset => .reset
  | .CalculateDatamodel => .calculate_datamodel
  | .CalculateDatabaseSteps => .calculate_database_steps

/-! ## Schema Model (spec section 3; the type the tests call `DatabaseSchema`) -/

/-- Backend-independent logical column types (spec section 3). -/
inductive ColType
  | int
  | float
  | boolean
  | string
  | dateTime
  | enumType (enumName : String)
deriving DecidableEq

/-- A column: name, logical type, nullability, optional default,
uniqueness flag, auto-increment flag (spec section 3). -/
structure Column where
  name : String
  tpe : ColType
  nullable : Bool
  default : Option String
  unique : Bool
  autoIncrement : Bool
deriving DecidableEq

/-- An index: name, owning table and ordered column names (spec section 3). -/
structure Index where
  name : String
  table : String
  columns : List String
deriving DecidableEq

/-- Referential action of a foreign key on delete/update. -/
inductive RefAction
  | noAction
  | cascade
  | setNull
  | restrict
deriving DecidableEq

/-- A foreign key: name, owning table and columns, target table and
columns, and on-delete/on-update actions (spec section 3). -/
structure ForeignKey where
  name : String
  table : String
  columns : List String
  refTable : String
  refColumns : List String
  onDelete : RefAction
  onUpdate : RefAction
deriving DecidableEq

/-- A table: ordered columns plus its indexes and foreign keys. -/
structure Table where
  name : String
  columns : List Column
  indexes : List Index
  foreignKeys : List ForeignKey
deriving DecidableEq

/-- A schema: the ordered set of its tables.  This is both the spec's
Schema Model and the `DatabaseSchema` the test harness introspects. -/
structure DatabaseSchema where
  tables : List Table
deriving DecidableEq

/-- The spec's name for the same structure. -/
abbrev SchemaModel := DatabaseSchema

/-- Spec section 3 invariant: table names are unique within a schema and
column names are unique within each table. -/
def DatabaseSchema.wf (s : DatabaseSchema) : Prop :=
  (s.tables.map Table.name).Nodup ∧
    ∀ t ∈ s.tables, (t.columns.map Column.name).Nodup

instance (s : DatabaseSchema) : Decidable s.wf := by
  unfold DatabaseSchema.wf
  infer_instance

/-- Migration steps (spec section 3): one atomic structural change. -/
inductive MigrationStep
  | createTable (t : Table)
  | dropTable (tableName : String)
  | addColumn (tableName : String) (c : Column)
  | dropColumn (tableName : String) (columnName : String)
  | alterColumn (tableName : String) (oldColumn newColumn : Column)
  | createIndex (i : Index)
  | dropIndex (i : Index)
  | createForeignKey (fk : ForeignKey)
  | dropForeignKey (fk : ForeignKey)
  | renameTable (oldName newName : String)
deriving DecidableEq

/-! ## Step Inferrer (spec section 4.3)

Modelled from the spec: the Step Inferrer's source is not part of the
visible core (only its tests and callers are under src/).  `infer` follows
the algorithm of spec section 4.3 literally: name-based set differences at
the table and column level, value-based set differences for indexes and
foreign keys, no implicit rename detection, and the global step ordering
of item 5.  Iteration order is made stable (spec's determinism clause) by
first sorting the table lists alphabetically by name. -/

/-- Alphabetical order on tables by name. -/
def tle (a b : Table) : Prop := a.name ≤ b.name

instance : DecidableRel tle := fun a b =>
  inferInstanceAs (Decidable (a.name ≤ b.name))

instance : IsTotal Table tle := ⟨fun a b => le_total a.name b.name⟩

instance : IsTrans Table tle := ⟨fun _ _ _ hab hbc => le_trans hab hbc⟩

/-- Stable iteration order over tables: alphabetical by name. -/
def canonTables (ts : List Table) : List Table :=
  ts.insertionSort tle

/-- First table with the given name. -/
def findTable (ts : List Table) (n : String) : Option Table :=
  ts.find? (fun t => t.name == n)

/-- First column with the given name. -/
def findColumn (cs : List Column) (n : String) : Option Column :=
  cs.find? (fun c => c.name == n)

/-- Whether two same-named columns differ in type, nullability, default
or uniqueness (spec section 4.3 item 2). -/
def columnsDiffer (a b : Column) : Bool :=
  decide (¬ (a.tpe = b.tpe ∧ a.nullable = b.nullable ∧
             a.default = b.default ∧ a.unique = b.unique))

/-- Tables present only in `cur` (spec section 4.3 item 1). -/
def droppedTables (cur des : List Table) : List Table :=
  cur.filter (fun t => (findTable des t.name).isNone)

/-- Tables present only in `des` (spec section 4.3 item 1). -/
def createdTables (cur des : List Table) : List Table :=
  des.filter (fun t => (findTable cur t.name).isNone)

/-- Tables present in both, paired (current, desired). -/
def matchedTables (cur des : List Table) : List (Table × Table) :=
  des.filterMap (fun td => (findTable cur td.name).map (fun tc => (tc, td)))

/-- Columns of the desired table absent from the current one. -/
def addedColumns (tc td : Table) : List Column :=
  td.columns.filter (fun c => (findColumn tc.columns c.name).isNone)

/-- Columns of the current table absent from the desired one. -/
def droppedColumns (tc td : Table) : List Column :=
  tc.columns.filter (fun c => (findColumn td.columns c.name).isNone)

/-- Same-named column pairs whose attributes differ (old, new). -/
def alteredColumns (tc td : Table) : List (Column × Column) :=
  td.columns.filterMap (fun cNew =>
    match findColumn tc.columns cNew.name with
    | some cOld => if columnsDiffer cOld cNew then some (cOld, cNew) else none
    | none => none)

/-- Indexes to drop for a matched table pair (set difference, spec
section 4.3 item 4). -/
def droppedIndexes (tc td : Table) : List Index :=
  tc.indexes.filter (fun i => decide (i ∉ td.indexes))

/-- Indexes to create for a matched table pair. -/
def createdIndexes (tc td : Table) : List Index :=
  td.indexes.filter (fun i => decide (i ∉ tc.indexes))

/-- Foreign keys to drop for a matched table pair. -/
def droppedFKs (tc td : Table) : List ForeignKey :=
  tc.foreignKeys.filter (fun fk => decide (fk ∉ td.foreignKeys))

/-- Foreign keys to create for a matched table pair. -/
def createdFKs (tc td : Table) : List ForeignKey :=
  td.foreignKeys.filter (fun fk => decide (fk ∉ tc.foreignKeys))

/-- The diff of canonically-ordered table lists, concatenated in the
global step order of spec section 4.3 item 5: DropForeignKey/DropIndex,
then DropColumn/DropTable, then CreateTable, then AddColumn, then
AlterColumn, then CreateIndex/CreateForeignKey. -/
def inferCanon (cur des : List Table) : List MigrationStep :=
  (matchedTables cur des |>.flatMap (fun p => (droppedFKs p.1 p.2).map .dropForeignKey)) ++
  (matchedTables cur des |>.flatMap (fun p => (droppedIndexes p.1 p.2).map .dropIndex)) ++
  (matchedTables cur des |>.flatMap (fun p =>
    (droppedColumns p.1 p.2).map (fun c => .dropColumn p.1.name c.name))) ++
  ((droppedTables cur des).map (fun t => .dropTable t.name)) ++
  ((createdTables cur des).map .createTable) ++
  (matchedTables cur des |>.flatMap (fun p =>
    (addedColumns p.1 p.2).map (fun c => .addColumn p.1.name c))) ++
  (matchedTables cur des |>.flatMap (fun p =>
    (alteredColumns p.1 p.2).map (fun q => .alterColumn p.1.name q.1 q.2))) ++
  (matchedTables cur des |>.flatMap (fun p => (createdIndexes p.1 p.2).map .createIndex)) ++
  (matchedTables cur des |>.flatMap (fun p => (createdFKs p.1 p.2).map .createForeignKey))

/-- Modelled from the spec: `infer(current, desired)`, spec section 4.3. -/
def infer (current desired : SchemaModel) : List MigrationStep :=
  inferCanon (canonTables current.tables) (canonTables desired.tables)

/-! ## Error conversion at the dispatcher boundary (rpc.rs lines 177-190) -/

/-- Structured JSON values (for the error envelope's data payload). -/
inductive Json
  | null
  | jbool (b : Bool)
  | num (n : Int)
  | str (s : String)
  | arr (elems : List Json)
  | obj (fields : List (String × Json))

/-- The `CommandError` variant visible in the sources
(`CommandError::DataModelErrors`, rpc.rs lines 51-54). -/
inductive CommandError
  | dataModelErrors (code : Nat) (errors : List String)
deriving DecidableEq

/-- Serialization of a `CommandError` (the `serde_json::to_value` call in
`convert_error`). -/
def CommandError.toJson : CommandError → Json
  | .dataModelErrors code errors =>
      .obj [("code", .num (Int.ofNat code)), ("errors", .arr (errors.map .str))]

/-- Modelled from the spec: `crate::error::Error` is not under src/.
rpc.rs matches `Error::CommandError(..)` and has a wildcard arm for the
other variants; spec section 7 lists further component-level errors
(ConnectionError, ApplyError, ...), so we keep one representative
non-command variant. -/
inductive CoreError
  | commandError (ce : CommandError)
  | connectionError (detail : String)
deriving DecidableEq

/-- The JSON-RPC error envelope: application error code, human-readable
message, structured data payload. -/
structure JsonRpcError where
  code : Int
  message : String
  data : Option Json

/-- Model of `convert_error` (rpc.rs lines 177-190).  The wildcard arm of the Rust
match is `unimplemented!()` — a panic; we model it as `none`: no
structured error envelope is produced for such errors. -/
def convert_error : CoreError → Option JsonRpcError
  | .commandError ce =>
      some { code := 4466,
             message := "An error happened. Check the data field for details.",
             data := some ce.toJson }
  | _ => none

/-! ## The preview command (spec sections 4.6 and 8) -/

/-- Components a command handler may invoke. -/
inductive Component
  | stepInferrer
  | connectorRenderer
  | migrationApplier
deriving DecidableEq

/-- The engine-visible database state: the catalog of tables. -/
structure EngineState where
  catalog : List Table
deriving DecidableEq

/-- Modelled from the spec: the Database Inspector reads the live catalog
into a Schema Model (spec section 4.2). -/
def introspectState (s : EngineState) : DatabaseSchema := ⟨s.catalog⟩

/-- Result of a preview command: the rendered DDL, the engine state after
the command, and the components invoked. -/
structure PreviewResult where
  ddl : List String
  state : EngineState
  called : List Component
deriving DecidableEq

/-- Modelled from the spec: the `CalculateDatabaseSteps` command
implementation is not under src/; per spec section 4.6 it "must call the
Step Inferrer and Connector renderer but must not call the Migration
Applier (preview only, no side effects)".  `renderStep` abstracts the
connector's pure `render_step`. -/
def calculate_database_steps (renderStep : MigrationStep → List String)
    (s : EngineState) (desired : SchemaModel) : PreviewResult :=
  let steps := infer (introspectState s) desired
  { ddl := steps.flatMap renderStep,
    state := s,
    called := [.stepInferrer, .connectorRenderer] }

/-! ## Introspection and the history table (misc_helpers.rs lines 92-107) -/

/-- Modelled from the spec: `DatabaseInspector::introspect` is not under
src/.  The harness comment at misc_helpers.rs line 104 ("the presence of
the _Migration table makes assertions harder. Therefore remove it from
the result.") records that the raw introspection result includes the
reserved `_Migration` history table when it exists in the database, so
the raw introspection reflects the catalog unchanged. -/
def rawIntrospect (catalog : List Table) : DatabaseSchema := ⟨catalog⟩

/-- Model of `introspect_database` of the test harness (misc_helpers.rs lines
92-107): introspect, then remove the `_Migration` table from the result.
`BarrelMigrationExecutor::execute` (existing_databases_tests.rs lines
377-390) applies the same filter after its introspection. -/
def introspect_database (raw : DatabaseSchema) : DatabaseSchema :=
  ⟨raw.tables.filter (fun t => t.name != "_Migration")⟩

/-! ## Sample data used by witnesses -/

/-- The api produced by a successful `rpcApiNew`. -/
def sampleApi : RpcApiModel :=
  { backend := .sqlite,
    registered := registrationOrder.map (fun c => (c.name, c)) }

/-- An integer primary-key column. -/
def colId : Column :=
  { name := "id", tpe := .int, nullable := false, default := none,
    unique := true, autoIncrement := true }

/-- A text column. -/
def colTitle : Column :=
  { name := "title", tpe := .string, nullable := false, default := none,
    unique := false, autoIncrement := false }

/-- A sample user table. -/
def blogTable : Table :=
  { name := "Blog", columns := [colId, colTitle], indexes := [], foreignKeys := [] }

/-- A second sample user table. -/
def postTable : Table :=
  { name := "Post", columns := [colId], indexes := [], foreignKeys := [] }

/-- The reserved Migration History Store table. -/
def migrationTable : Table :=
  { name := "_Migration", columns := [colId], indexes := [], foreignKeys := [] }

/-- A sample well-formed schema. -/
def sampleSchema : SchemaModel := ⟨[blogTable, postTable]⟩

/-- The eight operation names of spec section 4.6. -/
def specMethodNames : List String :=
  ["inferMigrationSteps", "listMigrations", "migrationProgress",
   "applyMigration", "unapplyMigration", "reset", "calculateDatamodel",
   "calculateDatabaseSteps"]

/-! ## Theorems -/

@[simp] theorem concatTake_nil (k : Nat) : concatTake k [] = "" := by
  simp [concatTake]

@[simp] theorem concatTake_zero (lines : List String) : concatTake 0 lines = "" := by
  simp [concatTake]

theorem concatTake_succ_cons (k : Nat) (l : String) (rest : List String) :
    concatTake (k + 1) (l :: rest) = l ++ concatTake k rest := by
  simp [concatTake, List.take_succ_cons, List.foldr_cons]

theorem readUntilJson_isSome_iff (p : String → Bool) :
    ∀ (lines : List String) (buf : String), p buf = false →
      ((readUntilJson p lines buf).isSome ↔
        ∃ k, 1 ≤ k ∧ p (buf ++ concatTake k lines) = true) := by
  intro lines
  induction lines with
  | nil =>
    intro buf hbuf
    simp [readUntilJson, hbuf]
  | cons l rest ih =>
    intro buf hbuf
    by_cases h : p (buf ++ l) = true
    · constructor
      · intro _
        refine ⟨1, le_refl 1, ?_⟩
        rw [concatTake_succ_cons, concatTake_zero]
        simpa using h
      · intro _
        simp [readUntilJson, h]
    · have hfalse : p (buf ++ l) = false := by
        cases hpl : p (buf ++ l) with
        | true => exact absurd hpl h
        | false => rfl
      have heq : readUntilJson p (l :: rest) buf = readUntilJson p rest (buf ++ l) := by
        simp [readUntilJson, hfalse]
      rw [heq, ih (buf ++ l) hfalse]
      constructor
      · rintro ⟨k, hk, hp⟩
        refine ⟨k + 1, Nat.le_add_left 1 k, ?_⟩
        rw [concatTake_succ_cons, ← String.append_assoc]
        exact hp
      · rintro ⟨k, hk, hp⟩
        match k, hk with
        | 1, _ =>
          rw [concatTake_succ_cons, concatTake_zero, ← String.append_assoc] at hp
          simp at hp
          exact absurd hp h
        | Nat.succ (Nat.succ j), _ =>
          refine ⟨j + 1, Nat.le_add_left 1 j, ?_⟩
          rw [concatTake_succ_cons, ← String.append_assoc] at hp
          exact hp

theorem readUntilJson_some_spec (p : String → Bool) :
    ∀ (lines : List String) (buf req : String),
      readUntilJson p lines buf = some req →
      p req = true ∧ ∃ k, req = buf ++ concatTake k lines := by
  intro lines
  induction lines with
  | nil =>
    intro buf req h
    by_cases hbuf : p buf = true
    · simp [readUntilJson, hbuf] at h
      subst h
      exact ⟨hbuf, 0, by simp⟩
    · simp [readUntilJson, hbuf] at h
  | cons l rest ih =>
    intro buf req h
    by_cases hl : p (buf ++ l) = true
    · simp [readUntilJson, hl] at h
      subst h
      refine ⟨hl, 1, ?_⟩
      rw [concatTake_succ_cons, concatTake_zero]
      simp
    · have hfalse : p (buf ++ l) = false := by
        cases hpl : p (buf ++ l) with
        | true => exact absurd hpl hl
        | false => rfl
      have heq : readUntilJson p (l :: rest) buf = readUntilJson p rest (buf ++ l) := by
        simp [readUntilJson, hfalse]
      rw [heq] at h
      obtain ⟨hreq, k, hk⟩ := ih (buf ++ l) req h
      refine ⟨hreq, k + 1, ?_⟩
      rw [concatTake_succ_cons, ← String.append_assoc]
      exact hk

theorem rpcApiNew_ok_registered (connect : SupportedBackend → String → Bool)
    (datasources : List Datasource) (api : RpcApiModel)
    (h : rpcApiNew connect datasources = .ok api) :
    api.registered = registrationOrder.map (fun c => (c.name, c)) := by
  unfold rpcApiNew at h
  split at h
  · simp at h
  · split at h
    · split at h
      · cases h
        rfl
      · simp at h
    · simp at h


/-! ### Step Inferrer lemmas -/

theorem filterMap_congr_some {α β : Type} {l : List α} {f : α → Option β}
    {g : α → β} (h : ∀ a ∈ l, f a = some (g a)) : l.filterMap f = l.map g := by
  induction l with
  | nil => rfl
  | cons a t ih =>
    simp only [List.filterMap_cons, h a (List.mem_cons_self a t), List.map_cons]
    rw [ih (fun x hx => h x (List.mem_cons_of_mem a hx))]

theorem findTable_self {ts : List Table} (hn : (ts.map Table.name).Nodup)
    {t : Table} (ht : t ∈ ts) : findTable ts t.name = some t := by
  induction ts with
  | nil => cases ht
  | cons a rest ih =>
    rw [List.map_cons, List.nodup_cons] at hn
    rcases List.mem_cons.mp ht with h | h
    · subst h
      simp [findTable]
    · have hne : a.name ≠ t.name := by
        intro he
        exact hn.1 (he ▸ List.mem_map.mpr ⟨t, h, rfl⟩)
      have hb : (a.name == t.name) = false := beq_eq_false_iff_ne.mpr hne
      unfold findTable
      rw [List.find?_cons, hb]
      exact ih hn.2 h

theorem findColumn_self {cs : List Column} (hn : (cs.map Column.name).Nodup)
    {c : Column} (hc : c ∈ cs) : findColumn cs c.name = some c := by
  induction cs with
  | nil => cases hc
  | cons a rest ih =>
    rw [List.map_cons, List.nodup_cons] at hn
    rcases List.mem_cons.mp hc with h | h
    · subst h
      simp [findColumn]
    · have hne : a.name ≠ c.name := by
        intro he
        exact hn.1 (he ▸ List.mem_map.mpr ⟨c, h, rfl⟩)
      have hb : (a.name == c.name) = false := beq_eq_false_iff_ne.mpr hne
      unfold findColumn
      rw [List.find?_cons, hb]
      exact ih hn.2 h

theorem findTable_isSome_of_mem {ts : List Table} {t : Table} (ht : t ∈ ts) :
    (findTable ts t.name).isSome := List.find?_isSome.mpr ⟨t, ht, by simp⟩

theorem findColumn_isSome_of_mem {cs : List Column} {c : Column} (hc : c ∈ cs) :
    (findColumn cs c.name).isSome := List.find?_isSome.mpr ⟨c, hc, by simp⟩

theorem droppedTables_self (ts : List Table) : droppedTables ts ts = [] := by
  rw [droppedTables, List.filter_eq_nil_iff]
  intro t ht
  obtain ⟨x, hx⟩ := Option.isSome_iff_exists.mp (findTable_isSome_of_mem ht)
  simp [hx]

theorem createdTables_self (ts : List Table) : createdTables ts ts = [] := by
  rw [createdTables, List.filter_eq_nil_iff]
  intro t ht
  obtain ⟨x, hx⟩ := Option.isSome_iff_exists.mp (findTable_isSome_of_mem ht)
  simp [hx]

theorem matchedTables_self {ts : List Table} (hn : (ts.map Table.name).Nodup) :
    matchedTables ts ts = ts.map (fun t => (t, t)) := by
  apply filterMap_congr_some
  intro t ht
  rw [findTable_self hn ht]
  rfl

theorem addedColumns_self (t : Table) : addedColumns t t = [] := by
  rw [addedColumns, List.filter_eq_nil_iff]
  intro c hc
  obtain ⟨x, hx⟩ := Option.isSome_iff_exists.mp (findColumn_isSome_of_mem hc)
  simp [hx]

theorem droppedColumns_self (t : Table) : droppedColumns t t = [] := by
  rw [droppedColumns, List.filter_eq_nil_iff]
  intro c hc
  obtain ⟨x, hx⟩ := Option.isSome_iff_exists.mp (findColumn_isSome_of_mem hc)
  simp [hx]

theorem alteredColumns_self {t : Table} (hn : (t.columns.map Column.name).Nodup) :
    alteredColumns t t = [] := by
  rw [alteredColumns, List.filterMap_eq_nil_iff]
  intro c hc
  rw [findColumn_self hn hc]
  simp [columnsDiffer]

theorem droppedIndexes_self (t : Table) : droppedIndexes t t = [] := by
  rw [droppedIndexes, List.filter_eq_nil_iff]
  intro i hi
  simp [hi]

theorem createdIndexes_self (t : Table) : createdIndexes t t = [] := by
  rw [createdIndexes, List.filter_eq_nil_iff]
  intro i hi
  simp [hi]

theorem droppedFKs_self (t : Table) : droppedFKs t t = [] := by
  rw [droppedFKs, List.filter_eq_nil_iff]
  intro fk hfk
  simp [hfk]

theorem createdFKs_self (t : Table) : createdFKs t t = [] := by
  rw [createdFKs, List.filter_eq_nil_iff]
  intro fk hfk
  simp [hfk]

theorem inferCanon_self {ts : List Table} (hn : (ts.map Table.name).Nodup)
    (hc : ∀ t ∈ ts, (t.columns.map Column.name).Nodup) :
    inferCanon ts ts = [] := by
  have key : ∀ (f : Table × Table → List MigrationStep),
      (∀ t ∈ ts, f (t, t) = []) →
      (ts.map (fun t => (t, t))).flatMap f = [] := by
    intro f hf
    rw [List.flatMap_eq_nil_iff]
    intro p hp
    obtain ⟨t, ht, rfl⟩ := List.mem_map.mp hp
    exact hf t ht
  unfold inferCanon
  rw [matchedTables_self hn, droppedTables_self, createdTables_self]
  rw [key _ (fun t _ => by rw [droppedFKs_self]; rfl)]
  rw [key _ (fun t _ => by rw [droppedIndexes_self]; rfl)]
  rw [key _ (fun t _ => by rw [droppedColumns_self]; rfl)]
  rw [key _ (fun t _ => by rw [addedColumns_self]; rfl)]
  rw [key _ (fun t ht => by rw [alteredColumns_self (hc t ht)]; rfl)]
  rw [key _ (fun t _ => by rw [createdIndexes_self]; rfl)]
  rw [key _ (fun t _ => by rw [createdFKs_self]; rfl)]
  rfl

theorem sorted_perm_eq_of_nodup_names :
    ∀ {l₁ l₂ : List Table}, l₁.Perm l₂ → l₁.Sorted tle → l₂.Sorted tle →
      (l₁.map Table.name).Nodup → l₁ = l₂ := by
  intro l₁
  induction l₁ with
  | nil =>
    intro l₂ hp _ _ _
    exact hp.nil_eq
  | cons a t ih =>
    intro l₂ hp hs₁ hs₂ hn
    cases l₂ with
    | nil => cases (hp.eq_nil)
    | cons b t₂ =>
      rw [List.sorted_cons] at hs₁ hs₂
      rw [List.map_cons, List.nodup_cons] at hn
      have hba : b = a := by
        have hbmem : b ∈ a :: t := hp.mem_iff.mpr (List.mem_cons_self b t₂)
        rcases List.mem_cons.mp hbmem with h | hbt
        · exact h
        · exfalso
          have hamem : a ∈ b :: t₂ := hp.mem_iff.mp (List.mem_cons_self a t)
          have hab : a.name ≤ b.name := hs₁.1 b hbt
          have hba2 : b.name ≤ a.name := by
            rcases List.mem_cons.mp hamem with h2 | hat₂
            · exact le_of_eq (by rw [h2])
            · exact hs₂.1 a hat₂
          have hname : a.name = b.name := le_antisymm hab hba2
          exact hn.1 (hname ▸ List.mem_map.mpr ⟨b, hbt, rfl⟩)
      subst hba
      rw [ih hp.cons_inv hs₁.2 hs₂.2 hn.2]

theorem canonTables_eq_of_perm {l l2 : List Table} (hp : l.Perm l2)
    (hn : (l.map Table.name).Nodup) : canonTables l = canonTables l2 := by
  apply sorted_perm_eq_of_nodup_names
  · exact (List.perm_insertionSort tle l).trans (hp.trans (List.perm_insertionSort tle l2).symm)
  · exact List.sorted_insertionSort tle l
  · exact List.sorted_insertionSort tle l2
  · exact ((List.perm_insertionSort tle l).map Table.name).nodup_iff.mpr hn

/-- C8: for every well-formed Schema Model S (unique table names, unique
column names per table — the invariants of spec section 3), inferring
migration steps from S to S yields the empty step list. -/
theorem c8_infer_self_is_empty (S : SchemaModel) (h : S.wf) :
    infer S S = [] := by
  unfold infer
  have hperm : (canonTables S.tables).Perm S.tables :=
    List.perm_insertionSort tle S.tables
  have hn : ((canonTables S.tables).map Table.name).Nodup :=
    ((hperm.map Table.name).nodup_iff).mpr h.1
  have hcols : ∀ t ∈ canonTables S.tables, (t.columns.map Column.name).Nodup :=
    fun t ht => h.2 t (hperm.mem_iff.mp ht)
  exact inferCanon_self hn hcols

/-- Witness for C8 at a concrete two-table schema. -/
theorem c8_infer_self_is_empty_witness :
    sampleSchema.wf ∧ infer sampleSchema sampleSchema = [] :=
  ⟨by decide, c8_infer_self_is_empty sampleSchema (by decide)⟩

/-- C9: the Step Inferrer is deterministic: presenting the same pair of
(current, desired) Schema Models — with tables enumerated in any
iteration order — produces the identical step sequence, because the
inferrer canonicalizes the iteration order over tables by name. -/
theorem c9_step_inferrer_deterministic (c c2 d d2 : SchemaModel)
    (hc : c.tables.Perm c2.tables) (hd : d.tables.Perm d2.tables)
    (hcn : (c.tables.map Table.name).Nodup)
    (hdn : (d.tables.map Table.name).Nodup) :
    infer c d = infer c2 d2 := by
  unfold infer
  rw [canonTables_eq_of_perm hc hcn, canonTables_eq_of_perm hd hdn]

/-- Witness for C9: the two table enumeration orders of the same schema
yield the same step sequence. -/
theorem c9_step_inferrer_deterministic_witness :
    (([blogTable, postTable] : List Table).Perm [postTable, blogTable]) ∧
    (([blogTable] : List Table).Perm [blogTable]) ∧
    infer ⟨[blogTable, postTable]⟩ ⟨[blogTable]⟩ =
      infer ⟨[postTable, blogTable]⟩ ⟨[blogTable]⟩ :=
  ⟨List.Perm.swap postTable blogTable [],
   List.Perm.refl _,
   c9_step_inferrer_deterministic ⟨[blogTable, postTable]⟩ ⟨[postTable, blogTable]⟩
     ⟨[blogTable]⟩ ⟨[blogTable]⟩
     (List.Perm.swap postTable blogTable []) (List.Perm.refl _)
     (by decide) (by decide)⟩


/-! ### Claim theorems: dispatcher, transport, errors, introspection -/

/-- C1: the Command Dispatcher exposes exactly the eight operations: for
every api produced by `RpcApi::new`, a method name has a registered
handler iff it is one of the eight spec operation names.  (The duplicate
registration of `migrationProgress` in the source re-registers the same
command and does not change the handled set.) -/
theorem c1_dispatcher_exposes_exactly_eight
    (connect : SupportedBackend → String → Bool)
    (datasources : List Datasource) (api : RpcApiModel)
    (h : rpcApiNew connect datasources = .ok api) :
    ∀ m : String, (lookupMethod api m).isSome ↔ m ∈ specMethodNames := by
  intro m
  rw [lookupMethod, rpcApiNew_ok_registered connect datasources api h]
  rw [List.find?_isSome]
  simp only [registrationOrder, RpcCommand.name, List.map_cons, List.map_nil]
  constructor
  · rintro ⟨x, hx, he⟩
    fin_cases hx <;> simp_all [specMethodNames]
  · intro hm
    fin_cases hm
    · exact ⟨("inferMigrationSteps", .InferMigrationSteps), by decide, by decide⟩
    · exact ⟨("listMigrations", .ListMigrations), by decide, by decide⟩
    · exact ⟨("migrationProgress", .MigrationProgress), by decide, by decide⟩
    · exact ⟨("applyMigration", .ApplyMigration), by decide, by decide⟩
    · exact ⟨("unapplyMigration", .UnapplyMigration), by decide, by decide⟩
    · exact ⟨("reset", .Reset), by decide, by decide⟩
    · exact ⟨("calculateDatamodel", .CalculateDatamodel), by decide, by decide⟩
    · exact ⟨("calculateDatabaseSteps", .CalculateDatabaseSteps), by decide, by decide⟩

/-- Witness for C1: a successful startup over a sqlite datasource; the
handled-method iff instantiated at the method name "reset". -/
theorem c1_dispatcher_exposes_exactly_eight_witness :
    rpcApiNew (fun _ _ => true) [⟨"sqlite", "file:dev.db"⟩] = .ok sampleApi ∧
    ((lookupMethod sampleApi "reset").isSome ↔ "reset" ∈ specMethodNames) :=
  ⟨rfl,
   c1_dispatcher_exposes_exactly_eight (fun _ _ => true)
     [⟨"sqlite", "file:dev.db"⟩] sampleApi rfl "reset"⟩

/-- C4: a configuration whose first datasource names a backend identifier
outside the supported set makes `RpcApi::new` fail at startup with the
`unimplemented!` panic (modelled as the `unsupportedBackendPanic` error):
no api is constructed, no handler is registered, and therefore no
per-request path can encounter an unknown backend. -/
theorem c4_unknown_backend_fatal_at_startup
    (connect : SupportedBackend → String → Bool)
    (datasources : List Datasource) (ds : Datasource)
    (h1 : datasources.head? = some ds)
    (h2 : ds.connector_type ∉ (["sqlite", "postgresql", "mysql"] : List String)) :
    (rpcApiNew connect datasources).isOk = false ∧
    rpcApiNew connect datasources =
      .error (.unsupportedBackendPanic ds.connector_type) := by
  simp only [List.mem_cons, List.not_mem_nil, or_false, not_or] at h2
  obtain ⟨n1, n2, n3⟩ := h2
  have hb : backendOfIdent ds.connector_type = none := by
    rw [backendOfIdent, if_neg n1, if_neg n2, if_neg n3]
  have he : rpcApiNew connect datasources =
      .error (.unsupportedBackendPanic ds.connector_type) := by
    unfold rpcApiNew
    simp only [h1, hb]
  exact ⟨by rw [he]; rfl, he⟩

/-- Witness for C4 at the concrete unsupported backend "mongodb". -/
theorem c4_unknown_backend_fatal_at_startup_witness :
    ([⟨"mongodb", "mongodb://localhost:27017"⟩] : List Datasource).head? =
      some ⟨"mongodb", "mongodb://localhost:27017"⟩ ∧
    "mongodb" ∉ (["sqlite", "postgresql", "mysql"] : List String) ∧
    (rpcApiNew (fun _ _ => true)
      [⟨"mongodb", "mongodb://localhost:27017"⟩]).isOk = false ∧
    rpcApiNew (fun _ _ => true) [⟨"mongodb", "mongodb://localhost:27017"⟩] =
      .error (.unsupportedBackendPanic "mongodb") :=
  ⟨rfl, by decide,
   (c4_unknown_backend_fatal_at_startup (fun _ _ => true)
     [⟨"mongodb", "mongodb://localhost:27017"⟩]
     ⟨"mongodb", "mongodb://localhost:27017"⟩ rfl (by decide)).1,
   (c4_unknown_backend_fatal_at_startup (fun _ _ => true)
     [⟨"mongodb", "mongodb://localhost:27017"⟩]
     ⟨"mongodb", "mongodb://localhost:27017"⟩ rfl (by decide)).2⟩

/-- C5 counterexample: a component-level error that is not a
`CommandError` — spec section 7's ConnectionError — is not converted into
the structured error envelope: `convert_error` hits the wildcard
`unimplemented!` arm (a panic, modelled as `none`).  This refutes "every
component-level error surfaced to a caller is converted ... into the
fixed structured error envelope". -/
theorem c5_counterexample :
    convert_error (.connectionError "database unreachable") = none := rfl

/-- C5 (amended): errors of the `CommandError` variant are converted, at
the dispatcher boundary, into the fixed structured envelope — code 4466,
the fixed human-readable message, and a data payload carrying the
serialized error detail; any other error variant is not converted into an
envelope but hits an `unimplemented!` panic. -/
theorem c5_command_errors_enveloped (ce : CommandError) (detail : String) :
    convert_error (.commandError ce) =
      some { code := 4466,
             message := "An error happened. Check the data field for details.",
             data := some ce.toJson } ∧
    convert_error (.connectionError detail) = none :=
  ⟨rfl, rfl⟩

/-- C6: the dispatcher routes the `CalculateDatabaseSteps` command to the
executor's `calculate_database_steps`, which invokes only the Step
Inferrer and the Connector's step renderer — never the Migration
Applier — and leaves the database state unchanged, so introspection
before equals introspection after. -/
theorem c6_calculate_database_steps_preview
    (renderStep : MigrationStep → List String) (s : EngineState)
    (desired : SchemaModel) :
    executorMethodOf .CalculateDatabaseSteps = .calculate_database_steps ∧
    (calculate_database_steps renderStep s desired).called =
      [.stepInferrer, .connectorRenderer] ∧
    Component.migrationApplier ∉
      (calculate_database_steps renderStep s desired).called ∧
    (calculate_database_steps renderStep s desired).state = s ∧
    introspectState (calculate_database_steps renderStep s desired).state =
      introspectState s := by
  refine ⟨rfl, rfl, ?_, rfl, rfl⟩
  intro hmem
  simp [calculate_database_steps] at hmem

/-- C7 counterexample: introspecting a catalog containing the reserved
`_Migration` history table returns a Schema Model that still contains it
(the harness comment records its presence; the exclusion is done by the
test helpers, not by the inspector), refuting "the Schema Model returned
by the Database Inspector's introspect operation contains no table
belonging to the Migration History Store". -/
theorem c7_counterexample :
    (rawIntrospect [blogTable, migrationTable]).tables.any
      (fun t => t.name == "_Migration") = true := rfl

/-- C7 (amended): the raw introspection result reflects the catalog
unchanged (so it includes the `_Migration` table when present); the test
helper `introspect_database` removes it, so every schema exposed to test
assertions contains no history-store table. -/
theorem c7_history_table_filtered (raw : DatabaseSchema)
    (catalog : List Table) :
    (introspect_database raw).tables.all
      (fun t => t.name != "_Migration") = true ∧
    (rawIntrospect catalog).tables = catalog := by
  refine ⟨?_, rfl⟩
  simp only [introspect_database]
  rw [List.all_eq_true]
  intro t ht
  exact (List.mem_filter.mp ht).2

/-- C10: the request-reading loop terminates precisely when some finite
concatenation of initial lines of standard input parses as well-formed
JSON; on a stream that reaches end of file without any such prefix
(`read_line` then returns 0 bytes and leaves the buffer unchanged), the
loop never terminates (modelled by `none`). -/
theorem c10_read_loop_termination (lines : List String) :
    (readUntilJson jsonComplete lines "").isSome = true ↔
      ∃ k, jsonComplete (concatTake k lines) = true := by
  rw [readUntilJson_isSome_iff jsonComplete lines "" (by decide)]
  constructor
  · rintro ⟨k, _, hp⟩
    refine ⟨k, ?_⟩
    simpa using hp
  · rintro ⟨k, hp⟩
    cases k with
    | zero =>
      rw [concatTake_zero] at hp
      exact absurd hp (by decide)
    | succ j =>
      refine ⟨j + 1, Nat.succ_le_succ (Nat.zero_le j), ?_⟩
      simpa using hp

/-- C2 counterexample: on the input stream consisting of the single line
"hello, world" followed by end of file, no concatenation of initial lines
parses as JSON, the read loop never terminates, and no response message
is produced — refuting "for every input stream ... produces exactly one
response message". -/
theorem c2_counterexample :
    handle jsonComplete (fun s => some s) ["hello, world\n"] = none := by
  decide

/-- C2 (amended): for every input stream some finite concatenation of
whose initial lines parses as well-formed JSON, the reader accumulates
lines from the start of the stream until the buffer parses, treats that
buffer as exactly one request, and produces exactly one response for it;
a stream with no such prefix produces no response at all. -/
theorem c2_single_request_single_response (d : String → String)
    (lines : List String)
    (h : ∃ k, jsonComplete (concatTake k lines) = true) :
    ∃ req, readUntilJson jsonComplete lines "" = some req ∧
      jsonComplete req = true ∧
      (∃ k, req = concatTake k lines) ∧
      handle jsonComplete (fun s => some (d s)) lines = some (d req) := by
  have hsome : (readUntilJson jsonComplete lines "").isSome := by
    rw [readUntilJson_isSome_iff jsonComplete lines "" (by decide)]
    obtain ⟨k, hk⟩ := h
    cases k with
    | zero =>
      rw [concatTake_zero] at hk
      exact absurd hk (by decide)
    | succ j =>
      exact ⟨j + 1, Nat.succ_le_succ (Nat.zero_le j), by simpa using hk⟩
  obtain ⟨req, hreq⟩ := Option.isSome_iff_exists.mp hsome
  obtain ⟨hp, k, hk⟩ := readUntilJson_some_spec jsonComplete lines "" req hreq
  refine ⟨req, hreq, hp, ⟨k, by simpa using hk⟩, ?_⟩
  rw [handle, hreq]

/-- Witness for C2 (amended): the two lines "[1," and "2]" accumulate
into the single request "[1,\n2]\n" and one response is produced. -/
theorem c2_single_request_single_response_witness :
    (∃ k, jsonComplete (concatTake k ["[1,\n", "2]\n"]) = true) ∧
    ∃ req, readUntilJson jsonComplete ["[1,\n", "2]\n"] "" = some req ∧
      jsonComplete req = true ∧
      (∃ k, req = concatTake k ["[1,\n", "2]\n"]) ∧
      handle jsonComplete (fun s => some s) ["[1,\n", "2]\n"] = some req :=
  ⟨⟨2, by decide⟩,
   c2_single_request_single_response (fun s => s) ["[1,\n", "2]\n"]
     ⟨2, by decide⟩⟩

/-- C3 counterexample: the stream holds a malformed first line
"not json" followed by the well-formed request "null"; the malformed line
is never rejected — it stays in the accumulation buffer and poisons it,
so the loop never terminates, the subsequent request is never read, and
no response is produced.  This refutes "only that single request is
rejected and the process continues running and reading subsequent
requests". -/
theorem c3_counterexample :
    handle jsonComplete (fun s => some s) ["not json\n", "null\n"] = none := by
  decide

/-- C3 (amended): malformed framing is not rejected per request: a line
that does not extend to a JSON-parsable buffer stays in the accumulation
buffer, so on a stream none of whose initial-line concatenations parses
as JSON the dispatcher produces no response and never reads a further
request (and `main` performs a single `handle` call, so the process
serves at most one request per invocation in any case). -/
theorem c3_malformed_framing_blocks (dispatch : String → Option String)
    (lines : List String)
    (h : ∀ k, jsonComplete (concatTake k lines) = false) :
    handle jsonComplete dispatch lines = none := by
  cases hr : readUntilJson jsonComplete lines "" with
  | none => simp [handle, hr]
  | some req =>
    exfalso
    have hs : (readUntilJson jsonComplete lines "").isSome := by
      rw [hr]; rfl
    rw [readUntilJson_isSome_iff jsonComplete lines "" (by decide)] at hs
    obtain ⟨k, _, hp⟩ := hs
    rw [show ("" : String) ++ concatTake k lines = concatTake k lines by simp] at hp
    rw [h k] at hp
    cases hp

/-- Witness for C3 (amended) on the concrete poisoned stream. -/
theorem c3_malformed_framing_blocks_witness :
    (∀ k, jsonComplete (concatTake k ["not json\n", "null\n"]) = false) ∧
    handle jsonComplete (fun s => some s) ["not json\n", "null\n"] = none := by
  have h : ∀ k, jsonComplete (concatTake k ["not json\n", "null\n"]) = false := by
    intro k
    match k with
    | 0 => decide
    | 1 => decide
    | Nat.succ (Nat.succ j) =>
      rw [concatTake_succ_cons, concatTake_succ_cons, concatTake_nil]
      decide
  exact ⟨h, c3_malformed_framing_blocks (fun s => some s) _ h⟩

end Prisma
